import Mathlib

/-!
Verification development for the hopsworks-apigen API-surface manager.

The Python sources under `hopsworks_apigen/` are shallowly embedded as Lean
functions: pure formatting code becomes pure functions, code raising
exceptions returns `Except`, and the filesystem effects of alias
materialization are modelled as explicit state passing over an `Fs` record.
Paths are modelled as lists of path components, dotted module paths as
strings, and Python dicts keyed by strings as association lists whose lookup
returns the first match (equivalent here because the code never overwrites a
key after inserting it, or overwriting is modelled by shadowing).
-/

namespace HopsworksApigen

/-! ## `errors.py`: deprecation message formatting -/

/-- Whether the character list starts with the given pattern.  The string
operations of the embedding are written over `String.toList` so that every
definition evaluates inside the kernel on concrete inputs. -/
def charsStartWith : List Char → List Char → Bool
  | _, [] => true
  | [], _ :: _ => false
  | c :: cs, p :: ps => c == p && charsStartWith cs ps

/-- Python `s.startswith(pat)`. -/
def strStartsWith (s pat : String) : Bool :=
  charsStartWith s.toList pat.toList

/-- Python `s.endswith(pat)`. -/
def strEndsWith (s pat : String) : Bool :=
  charsStartWith s.toList.reverse pat.toList.reverse

/-- Drop the last `n` characters of a string. -/
def strDropRight (s : String) (n : Nat) : String :=
  String.mk (s.toList.take (s.toList.length - n))

/-- Python `s.split(".")`: the pieces of `s` between occurrences of `'.'`;
always one more piece than there are dots, so `""` splits to `[""]`. -/
def splitDotGo (cur : List Char) : List Char → List String
  | [] => [String.mk cur.reverse]
  | c :: cs =>
    if c == '.' then String.mk cur.reverse :: splitDotGo [] cs
    else splitDotGo (c :: cur) cs

/-- Python `s.split(".")`. -/
def splitDot (s : String) : List String :=
  splitDotGo [] s.toList

/-- One-or-more decimal digits, modelling the regex piece `\d+`.  Python's
`\d` also accepts non-ASCII Unicode decimal digits; the embedding restricts
to ASCII digits, which covers every version string the code is used with. -/
def isDigits (s : String) : Bool :=
  !s.toList.isEmpty && s.toList.all Char.isDigit

/-- Model of Python `re.match(r"^\d+\.\d+$", s)` viewed as a Bool: Python's
`$` matches at the end of the string or just before one trailing newline, so
a single trailing newline is stripped first. -/
def matchesVersion (s : String) : Bool :=
  let core := if strEndsWith s "\n" then strDropRight s 1 else s
  match splitDot core with
  | [a, b] => isDigits a && isDigits b
  | _ => false

/-- Python truthiness of the `available_until : str | None` parameter:
`None` and the empty string are falsy. -/
def optTruthy : Option String → Bool
  | none => false
  | some s => !(s == "")

/-- Error message for a malformed `available_until` (from
`generate_deprecation_message`). -/
def availableUntilErrMsg : String :=
  "The available_until parameter must be in the format 'major.minor', e.g., '4.0'."

/-- Error message for an empty recommendation list (from
`generate_deprecation_message`). -/
def emptyRecsErrMsg : String :=
  "At least one recommendation must be provided for deprecation warnings."

/-- The `len(deprecated_by)` case split of `generate_deprecation_message`
joining the recommendations: one item alone, two joined by " or ", three or
more as a comma list ending in ", or last".  The `[]` arm is never reached
because the empty list raises before joining. -/
def joinRecs : List String → String
  | [] => ""
  | [r] => r
  | [r1, r2] => r1 ++ " or " ++ r2
  | l => String.intercalate ", " l.dropLast ++ ", or " ++ l.getLastD ""

/-- The final f-string of `generate_deprecation_message`. -/
def deprecationText (name v recs : String) : String :=
  name ++ " is deprecated." ++
    " The function will be removed in " ++ v ++ " of hopsworks." ++
    " Consider using " ++ recs ++ " instead."

/-- `errors.generate_deprecation_message(name, *deprecated_by,
available_until=...)`: checks the version format (only when `available_until`
is truthy), then the non-emptiness of the recommendations, then formats the
message.  Raised `HopsworksApigenError`s become `Except.error`. -/
def generate_deprecation_message (name : String) (deprecated_by : List String)
    (available_until : Option String) : Except String String :=
  if optTruthy available_until && !matchesVersion (available_until.getD "") then
    .error availableUntilErrMsg
  else if deprecated_by.isEmpty then
    .error emptyRecsErrMsg
  else
    .ok (deprecationText name
      (if optTruthy available_until then "version " ++ available_until.getD ""
       else "a future release")
      (joinRecs deprecated_by))

/-! Spec-side definitions for the formatting claims: the joining rule and the
removal-version phrase exactly as the spec words them, to be compared with
the source-side `generate_deprecation_message`. -/

/-- Modelled from the spec's words: "one item alone; two items joined by
'or'; three-plus items as an Oxford-style comma list ending in ', or
<last>'". -/
def specJoin : List String → String
  | [] => ""
  | [x] => x
  | [x, y] => x ++ " or " ++ y
  | l => String.intercalate ", " l.dropLast ++ ", or " ++ l.getLastD ""

/-- Modelled from the spec's words: "state removal in the given version or 'a
future release' if version omitted". -/
def specVersionPhrase : Option String → String
  | none => "a future release"
  | some s => "version " ++ s

/-! ## `deprecation.py`: the call-time deprecation wrapper -/

/-- The allow-list test of `deprecated_f`: Python
`cn.startswith(("hopsworks", "hsfs", "hsml"))` on the caller's module name. -/
def isInternalCaller (cn : String) : Bool :=
  strStartsWith cn "hopsworks" || strStartsWith cn "hsfs" || strStartsWith cn "hsml"

/-- One invocation of the wrapper `deprecated_f` produced by `deprecated`:
given the warnings emitted so far by the process, the caller's module name and
the call argument, it appends the warning message when the caller is not
internal and returns the wrapped function's result on the unmodified
argument.  The argument `arg : α` stands for the whole tuple of positional
and keyword arguments. -/
def deprecated_f {α β : Type} (f : α → β) (message : String)
    (log : List String) (callerModule : String) (arg : α) : List String × β :=
  ((if isInternalCaller callerModule then log else log ++ [message]), f arg)

/-- A sequence of calls to the same wrapper within one process, threading the
process-wide warning log through.  The wrapper closure holds no other state
(it closes over only `f` and `message` in the source). -/
def runDeprecatedCalls {α β : Type} (f : α → β) (message : String) :
    List String → List (String × α) → List String × List β
  | log, [] => (log, [])
  | log, (cn, a) :: rest =>
    let step := deprecated_f f message log cn a
    let next := runDeprecatedCalls f message step.1 rest
    (next.1, step.2 :: next.2)

/-! ## `aliases.py`: the `public` annotation -/

/-- An element of the `*paths` tuple of `public`: either a string path or the
decorated symbol itself (the bare `@public` form passes the symbol as the
only positional argument). -/
inductive PathArg (T : Type) where
  | str (s : String)
  | obj (t : T)
deriving DecidableEq

/-- The kinds of exception the embedded code can raise: Python's built-in
`TypeError` and the repository's `HopsworksApigenError` (the configuration
error class of `errors.py`, which subclasses `Exception`, not `TypeError`). -/
inductive PyError where
  | typeError (msg : String)
  | apigenError (msg : String)
deriving DecidableEq

/-- Whether an error is the fatal configuration-error kind
(`HopsworksApigenError`). -/
def PyError.isConfigurationError : PyError → Bool
  | .apigenError _ => true
  | .typeError _ => false

/-- What a call `public(*paths)` returns before any decoration happens:
`len(paths) == 1 and not isinstance(paths[0], str)` is the bare form and
returns the symbol unchanged; every other call returns the `publicate`
decorator closed over `paths`. -/
inductive PublicReturn (T : Type) where
  | direct (t : T)
  | decorator (paths : List (PathArg T))
deriving DecidableEq

/-- `aliases.public(*paths)`: dispatch between the bare form and the
parameterized decorator form. -/
def public {T : Type} (paths : List (PathArg T)) : PublicReturn T :=
  match paths with
  | [PathArg.obj t] => .direct t
  | _ => .decorator paths

/-- `publicate(symbol)`, the decorator returned by the parameterized form of
`public`: `name = paths[0] if paths else ""`; a non-string primary path
raises `TypeError`; otherwise the name is recorded in `PublicNames.nameOf`
(modelled as an association list) and the symbol is returned unchanged. -/
def publicate {T : Type} (paths : List (PathArg T))
    (nameOf : List (T × String)) (symbol : T) :
    Except PyError (List (T × String) × T) :=
  match (match paths.head? with
         | some p => p
         | none => PathArg.str "") with
  | .str s => .ok ((symbol, s) :: nameOf, symbol)
  | .obj _ => .error (.typeError
      "The primary public path must be a string representing an import path.")

/-! ## `deprecation.py`: deprecating classes -/

/-- A Python function value as the class-deprecation pass sees it: either a
plain function or the `deprecated_f` wrapper closure around one, carrying the
message it warns with. -/
inductive PyFun (F : Type) where
  | plain (f : F)
  | wrapper (message : String) (inner : PyFun F)
deriving DecidableEq

/-- An attribute of a class as seen through `inspect.getmembers`: a function
member (possibly inherited) or any other value. -/
inductive ClassAttr (F V : Type) where
  | func (f : PyFun F)
  | other (v : V)
deriving DecidableEq

/-- A Python class for the purposes of `deprecate`: `objectId` models Python
object identity (`deprecate` mutates the class in place and returns the same
object), and `attrs` is the name-to-attribute view `inspect.getmembers`
resolves, including members inherited through the MRO. -/
structure PyClass (F V : Type) where
  objectId : Nat
  attrs : List (String × ClassAttr F V)
deriving DecidableEq

/-- Deprecating one function member of a class: `deprecated(..., public_name
= name + "." + n)` applied to the member function, which builds the warning
message for the dotted name and wraps the function. -/
def deprecateMember {F : Type} (deprecated_by : List String)
    (available_until : Option String) (clsName memberName : String)
    (f : PyFun F) : Except String (PyFun F) :=
  match generate_deprecation_message (clsName ++ "." ++ memberName)
      deprecated_by available_until with
  | .error e => .error e
  | .ok msg => .ok (.wrapper msg f)

/-- The class branch of `deprecate`: rebind every function member to its
wrapped form via `setattr`, leaving every other attribute alone. -/
def deprecateClassAttrs {F V : Type} (deprecated_by : List String)
    (available_until : Option String) (clsName : String) :
    List (String × ClassAttr F V) → Except String (List (String × ClassAttr F V))
  | [] => .ok []
  | (n, ClassAttr.func f) :: rest =>
    match deprecateMember deprecated_by available_until clsName n f with
    | .error e => .error e
    | .ok g =>
      match deprecateClassAttrs deprecated_by available_until clsName rest with
      | .error e => .error e
      | .ok rest' => .ok ((n, ClassAttr.func g) :: rest')
  | (n, ClassAttr.other v) :: rest =>
    match deprecateClassAttrs deprecated_by available_until clsName rest with
    | .error e => .error e
    | .ok rest' => .ok ((n, ClassAttr.other v) :: rest')

/-- `deprecate(symbol)` for a class symbol with resolved public name
`resolvedName`: wraps the function members in place and returns the same
class object (same `objectId`). -/
def deprecateClass {F V : Type} (deprecated_by : List String)
    (available_until : Option String) (resolvedName : String)
    (c : PyClass F V) : Except String (PyClass F V) :=
  match deprecateClassAttrs deprecated_by available_until resolvedName c.attrs with
  | .error e => .error e
  | .ok attrs' => .ok { objectId := c.objectId, attrs := attrs' }

/-- The attribute transform the claim expects of the class pass, stated
pointwise: function members are wrapped with the message for
`resolvedName.memberName`, other attributes are untouched.  `gdmText`
extracts the ok-payload of the message builder and is only meaningful when
the deprecation arguments are valid. -/
def gdmText (name : String) (deprecated_by : List String)
    (available_until : Option String) : String :=
  match generate_deprecation_message name deprecated_by available_until with
  | .ok s => s
  | .error _ => ""

/-! ## `mkdocs.py`: navigation merge -/

/-- One entry of an mkdocs `nav` list: a bare string or a mapping.  Nav
mappings are modelled as the single-key mappings mkdocs nav files use; the
source reads `next(iter(item.keys()))`, the first (here: only) key. -/
inductive NavEntry (V : Type) where
  | str (s : String)
  | map (key : String) (val : V)
deriving DecidableEq

/-- The match test of the `_merge_nav` loop body: a bare string equal to the
section title, or a mapping whose key is the section title. -/
def navMatches {V : Type} (title : String) : NavEntry V → Bool
  | .str s => s == title
  | .map k _ => k == title

/-- `mkdocs._merge_nav(cfg_nav, section_title, nav_list)`: walk the nav list,
replace the first matching entry in place with `{section_title: nav_list}`
and stop; append that entry at the end when nothing matches. -/
def _merge_nav {V : Type} (title : String) (navList : V) :
    List (NavEntry V) → List (NavEntry V)
  | [] => [.map title navList]
  | e :: rest =>
    if navMatches title e then .map title navList :: rest
    else e :: _merge_nav title navList rest

/-! ## `setuptools.py`: alias collection, validation and materialization -/

/-- Modelled from the spec: `HopsworksApigenGriffe.MAGIC_COMMENT`, declared in
the repository's `hopsworks_apigen/griffe.py`, which is not among the staged
source files.  The spec fixes only that it is "a fixed leading text signature
identifying a file as machine-generated"; the code uses it solely through
`startswith` tests and as the leading content of generated files, so the
concrete value is immaterial to the claims. -/
def MAGIC_COMMENT : String :=
  "# File generated by hopsworks-apigen. Do not edit.\n"

/-- An alias declaration as `collect_aliases` returns it: the dict
`{"from_module": ..., "object_name": ..., "alias_name": ...}` grouped under
its `target_module`. -/
structure AliasDecl where
  from_module : String
  object_name : String
  alias_name : String
deriving DecidableEq

/-- `f"{alias['from_module']}.{alias['object_name']}"`. -/
def origRef (a : AliasDecl) : String := a.from_module ++ "." ++ a.object_name

/-- Python string comparison: strict lexicographic order on code points. -/
def strLtChars : List Char → List Char → Bool
  | [], [] => false
  | [], _ :: _ => true
  | _ :: _, [] => false
  | a :: as, b :: bs =>
    if a.val < b.val then true
    else if b.val < a.val then false
    else strLtChars as bs

/-- Strict `<` on strings as Python compares them. -/
def strLt (a b : String) : Bool := strLtChars a.toList b.toList

/-- Non-strict `<=` on strings as Python compares them. -/
def strLe (a b : String) : Bool := !strLt b a

/-- The sort key comparison of `alias_list.sort(key=lambda x: (x["from_module"],
x["object_name"], x["alias_name"]))`: lexicographic on the triple. -/
def aliasLe (a b : AliasDecl) : Bool :=
  if a.from_module = b.from_module then
    if a.object_name = b.object_name then strLe a.alias_name b.alias_name
    else strLt a.object_name b.object_name
  else strLt a.from_module b.from_module

/-- Stable insertion of an element into a list sorted by `aliasLe`: placed
before the first existing element it compares `aliasLe` to, so an element
keeps its relative position among equals, as Python's stable sort does. -/
def insertSorted (a : AliasDecl) : List AliasDecl → List AliasDecl
  | [] => [a]
  | b :: l => if aliasLe a b then a :: b :: l else b :: insertSorted a l

/-- Model of `alias_list.sort(key=...)`: a sort by `aliasLe` (any correct
sort; the claims below depend only on it being a permutation). -/
def sortAliases : List AliasDecl → List AliasDecl
  | [] => []
  | a :: l => insertSorted a (sortAliases l)

/-- `collect_managed` lines 112-119, the source modules: every scanned
`*.py` file that is not an `__init__.py`, as a dotted path with the `.py`
suffix stripped from the last component.  A file path is a list of
components relative to the scanned root. -/
def sourceModulesOf (files : List (List String)) : List String :=
  (files.filter (fun f => !(f.getLastD "" == "__init__.py"))).map
    (fun f => String.intercalate "."
      (f.dropLast ++ [let n := f.getLastD ""
                      if strEndsWith n ".py" then strDropRight n 3 else n]))

/-- `collect_managed` lines 112-119, the source packages: the dotted parent
path of every scanned `__init__.py`. -/
def sourcePackagesOf (files : List (List String)) : List String :=
  (files.filter (fun f => f.getLastD "" == "__init__.py")).map
    (fun f => String.intercalate "." f.dropLast)

/-- The dotted prefixes `".".join(parts[:parent_number])` for `parent_number`
in `range(1, len(parts) + 1)`, where `parts = target_module.split(".")`:
every ancestor dotted path of the target, the target itself included. -/
def dottedPrefixes (t : String) : List String :=
  let parts := splitDot t
  (List.range parts.length).map (fun k => String.intercalate "." (parts.take (k + 1)))

/-- The package-collision error message of `collect_managed`. -/
def packageCollisionMsg (t : String) : String :=
  "Aliases are attempted to be created at " ++ t ++
    ", but the package already exists in the source files."

/-- The module-collision error message of `collect_managed`. -/
def moduleCollisionMsg (t p : String) : String :=
  "Aliases are attempted to be created at " ++ t ++ ", but the module " ++ p ++
    " already exists in the source files."

/-- `collect_managed` lines 121-132: the target-path collision check for one
target module, raising on an exact source-package match or on the first
dotted prefix that is a source module. -/
def checkTargetCollisions (source_packages source_modules : List String)
    (t : String) : Except String Unit :=
  if t ∈ source_packages then .error (packageCollisionMsg t)
  else
    match (dottedPrefixes t).find? (fun p => decide (p ∈ source_modules)) with
    | some p => .error (moduleCollisionMsg t p)
    | none => .ok ()

/-- The duplicate-alias error message of `collect_managed`. -/
def dupAliasMsg (ref aliasName target old : String) : String :=
  ref ++ " is attempted to be exported as " ++ aliasName ++ " in " ++ target ++
    ", but the package already contains this alias, set to " ++ old ++ "."

/-- Lookup in the `declared_names` dict, modelled as an association list
(no key is ever overwritten: a repeated key raises instead). -/
def lookupName (declared : List (String × String)) (n : String) : Option String :=
  match declared.find? (fun e => e.1 == n) with
  | some e => some e.2
  | none => none

/-- `collect_managed` lines 145-166: the per-target loop over the sorted
alias list, carrying the `imported_modules` set, the `declared_names` dict
and the content accumulated so far (already seeded with the magic comment).
A repeated `alias_name` raises; otherwise one `import` line is appended per
first-seen `from_module` followed by the `alias_name = from.object`
binding. -/
def emitAliases (target : String) :
    List String → List (String × String) → String → List AliasDecl →
    Except String String
  | _, _, content, [] => .ok content
  | imported, declared, content, a :: rest =>
    match lookupName declared a.alias_name with
    | some old => .error (dupAliasMsg (origRef a) a.alias_name target old)
    | none =>
      let declared' := (a.alias_name, origRef a) :: declared
      let step :=
        if a.from_module ∈ imported then (content, imported)
        else (content ++ "import " ++ a.from_module ++ "\n", a.from_module :: imported)
      emitAliases target step.2 declared'
        (step.1 ++ a.alias_name ++ " = " ++ origRef a ++ "\n") rest

/-- `root / target_module.replace(".", "/") / "__init__.py"` as path
components relative to the root. -/
def moduleFilePath (t : String) : List String :=
  splitDot t ++ ["__init__.py"]

/-- One iteration of the `collect_managed` main loop: collision check, sort,
then content emission for a `(target_module, alias_list)` pair. -/
def processTarget (source_packages source_modules : List String)
    (pair : String × List AliasDecl) : Except String (List String × String) :=
  match checkTargetCollisions source_packages source_modules pair.1 with
  | .error e => .error e
  | .ok _ =>
    match emitAliases pair.1 [] [] MAGIC_COMMENT (sortAliases pair.2) with
    | .error e => .error e
    | .ok content => .ok (moduleFilePath pair.1, content)

/-- The `collect_managed` main loop, building the `managed` dict in
iteration order of `aliases_by_module`. -/
def collect_managed_go (source_packages source_modules : List String) :
    List (String × List AliasDecl) → Except String (List (List String × String))
  | [] => .ok []
  | pair :: rest =>
    match processTarget source_packages source_modules pair with
    | .error e => .error e
    | .ok entry =>
      match collect_managed_go source_packages source_modules rest with
      | .error e => .error e
      | .ok entries => .ok (entry :: entries)

/-- `setuptools.collect_managed(root)`: validation and content generation for
the whole batch.  Its inputs — the grouped alias declarations and the scanned
source file paths — are those `collect_aliases` returns; the function itself
touches no files under any destination root. -/
def collect_managed (sourceFiles : List (List String))
    (aliasesByModule : List (String × List AliasDecl)) :
    Except String (List (List String × String)) :=
  collect_managed_go (sourcePackagesOf sourceFiles) (sourceModulesOf sourceFiles)
    aliasesByModule

/-! ### Materialization (`generate_aliases`, `install_aliases.run`) -/

/-- The filesystem under the destination root: the set of existing
directories and the existing files with their contents, both keyed by path
components relative to that root.  File lookup returns the first match, and
writing shadows, so an earlier entry for the same path is the current one. -/
structure Fs where
  dirs : List (List String)
  files : List (List String × String)
deriving DecidableEq

/-- Read a file's content (`Path.read_text` / `Path.exists`). -/
def getFile (files : List (List String × String)) (p : List String) :
    Option String :=
  match files.find? (fun e => e.1 == p) with
  | some e => some e.2
  | none => none

/-- Write a file (`Path.write_text` / `shutil.copy` onto the destination):
overwriting is modelled by shadowing earlier entries. -/
def setFile (files : List (List String × String)) (p : List String)
    (c : String) : List (List String × String) :=
  (p, c) :: files

/-- The `while not parent.exists()` loop of `generate_aliases`: the chain of
missing ancestor directories of `q`, nearest first.  The parent chain of a
path of `n` components has at most `n` proper ancestors, so recursion on a
fuel equal to the component count is exact; the root `[]` (the destination
root itself) is assumed to exist and stops the walk. -/
def collectMissingFuel (dirs : List (List String)) :
    Nat → List String → List (List String)
  | _, [] => []
  | 0, _ :: _ => []
  | fuel + 1, q@(_ :: _) =>
    if q ∈ dirs then [] else q :: collectMissingFuel dirs fuel q.dropLast

/-- The missing ancestors of directory path `q`, nearest first. -/
def collectMissing (dirs : List (List String)) (q : List String) :
    List (List String) :=
  collectMissingFuel dirs q.length q

/-- Stable insertion for sorting the gitignore entries
(`sorted(gitignore_entries)`). -/
def insertSortedStr (a : String) : List String → List String
  | [] => [a]
  | b :: l => if strLe a b then a :: b :: l else b :: insertSortedStr a l

/-- Model of Python `sorted` on strings. -/
def sortStrings : List String → List String
  | [] => []
  | a :: l => insertSortedStr a (sortStrings l)

/-- The body of the `for filepath, content in managed.items()` loop of
`generate_aliases`: create the missing ancestor directories deepest-last
(each recorded as a gitignore entry and seeded with a marker-only
`__init__.py`), then write the alias module file — unconditionally
(`filepath.write_text(content)` has no guard). -/
def materializeFile (fs : Fs) (gitignore : List String) (p : List String)
    (content : String) : Fs × List String :=
  let missing := (collectMissing fs.dirs p.dropLast).reverse
  let step := missing.foldl
    (fun (acc : Fs × List String) d =>
      ({ dirs := d :: acc.1.dirs,
         files := setFile acc.1.files (d ++ ["__init__.py"]) MAGIC_COMMENT },
       acc.2 ++ ["/" ++ String.intercalate "/" d]))
    (fs, gitignore)
  ({ step.1 with files := setFile step.1.files p content }, step.2)

/-- `setuptools.generate_aliases(source_root, destination_root)`: collect and
validate the whole batch, then materialize it under the destination root and
append the sorted entries for freshly created directories to the
`.gitignore` there.  A raised `HopsworksApigenError` propagates out of
`collect_managed` before the loop starts, so the filesystem is returned
untouched in the error case. -/
def generate_aliases (sourceFiles : List (List String))
    (aliasesByModule : List (String × List AliasDecl)) (fs : Fs) :
    Except String Unit × Fs :=
  match collect_managed sourceFiles aliasesByModule with
  | .error e => (.error e, fs)
  | .ok managed =>
    let run := managed.foldl
      (fun (acc : Fs × List String) pc => materializeFile acc.1 acc.2 pc.1 pc.2)
      (fs, [])
    if run.2.isEmpty then (.ok (), run.1)
    else
      let old :=
        match getFile run.1.files [".gitignore"] with
        | some txt => txt
        | none => "# Ignore generated alias files\n"
      (.ok (),
       { run.1 with
         files := setFile run.1.files [".gitignore"]
           (old ++ String.join ((sortStrings run.2).map (fun x => x ++ "\n"))) })

/-- `install_aliases.run` lines 280-291: copy each generated `*.py` file to
the install destination, but only over a destination file that is absent or
whose current content starts with the magic marker. -/
def install_copy (srcFiles : List (List String × String))
    (dest : List (List String × String)) : List (List String × String) :=
  srcFiles.foldl
    (fun dest pc =>
      match getFile dest pc.1 with
      | none => setFile dest pc.1 pc.2
      | some old =>
        if strStartsWith old MAGIC_COMMENT then setFile dest pc.1 pc.2 else dest)
    dest

/-! ## Helper lemmas -/

/-- The source's length case split on the recommendations joins them exactly
as the spec words it. -/
theorem joinRecs_eq_specJoin : ∀ l : List String, joinRecs l = specJoin l
  | [] => rfl
  | [_] => rfl
  | [_, _] => rfl
  | _ :: _ :: _ :: _ => rfl

/-- With a non-empty recommendation list and an absent or well-formed
version, the message builder reaches its formatting branch. -/
theorem gdm_ok_of_valid (name : String) (recs : List String) (au : Option String)
    (hrecs : recs ≠ [])
    (hau : au = none ∨ ∃ s, au = some s ∧ matchesVersion s = true) :
    generate_deprecation_message name recs au =
      .ok (deprecationText name
        (if optTruthy au then "version " ++ au.getD "" else "a future release")
        (joinRecs recs)) := by
  have hc : (optTruthy au && !matchesVersion (au.getD "")) = false := by
    rcases hau with h | ⟨s, hs, hm⟩
    · subst h; rfl
    · subst hs
      simp [hm]
  have he : recs.isEmpty = false := by
    cases recs with
    | nil => exact absurd rfl hrecs
    | cons a l => rfl
  simp [generate_deprecation_message, hc, he]

/-- A valid version option is either absent or a non-empty truthy string,
and then the source's version phrase agrees with the spec's. -/
theorem versionPhrase_of_valid (au : Option String)
    (hau : au = none ∨ ∃ s, au = some s ∧ matchesVersion s = true) :
    (if optTruthy au then "version " ++ au.getD "" else "a future release") =
      specVersionPhrase au := by
  rcases hau with h | ⟨s, hs, hm⟩
  · subst h; rfl
  · subst hs
    have hne : (s == "") = false := by
      cases hse : s == "" with
      | true =>
        have : s = "" := eq_of_beq hse
        subst this
        exact absurd hm (by decide)
      | false => rfl
    simp [optTruthy, specVersionPhrase, hne]

/-! ## Claim theorems -/

/-- C5.  For every name, non-empty recommendation list and valid or absent
`availableUntil`, `generate_deprecation_message` returns the string that
names the target, states removal in "version availableUntil" (or "a future
release" when absent), and joins the recommendations per the spec's rules:
the single item alone, "X or Y" for two, and a comma list ending in
", or last" for three or more. -/
theorem generate_deprecation_message_formats (name : String) (recs : List String)
    (au : Option String) (hrecs : recs ≠ [])
    (hau : au = none ∨ ∃ s, au = some s ∧ matchesVersion s = true) :
    generate_deprecation_message name recs au =
      .ok (deprecationText name (specVersionPhrase au) (specJoin recs)) := by
  rw [gdm_ok_of_valid name recs au hrecs hau, versionPhrase_of_valid au hau,
    joinRecs_eq_specJoin recs]

/-- Witness for C5 at a concrete input: three recommendations and version
"4.0". -/
theorem generate_deprecation_message_formats_witness :
    generate_deprecation_message "old_fn" ["a", "b", "c"] (some "4.0") =
      .ok (deprecationText "old_fn" (specVersionPhrase (some "4.0"))
        (specJoin ["a", "b", "c"])) :=
  generate_deprecation_message_formats "old_fn" ["a", "b", "c"] (some "4.0")
    (by decide) (Or.inr ⟨"4.0", rfl, rfl⟩)

/-- C6, counterexample.  The claim says the builder raises whenever
`availableUntil` is given and does not match the version pattern; the empty
string is given and does not match, yet the call succeeds, because Python's
truthiness test `if available_until and ...` skips the regex check for the
falsy empty string. -/
theorem generate_deprecation_message_empty_version_cex :
    matchesVersion "" = false
    ∧ generate_deprecation_message "f" ["a"] (some "") =
        .ok ("f is deprecated." ++
          " The function will be removed in a future release of hopsworks." ++
          " Consider using a instead.") :=
  ⟨rfl, rfl⟩

/-- C6, amended.  `generate_deprecation_message` fails exactly when the
recommendation list is empty, or `availableUntil` is given, non-empty (truthy)
and does not match the pattern; the claim's concrete instances hold:
`["a"]` with "4" fails with the version-format error and with "4.0" succeeds
yielding text containing "version 4.0". -/
theorem generate_deprecation_message_error_iff (name : String) (recs : List String)
    (au : Option String) :
    ((∃ e, generate_deprecation_message name recs au = .error e) ↔
      (recs = [] ∨ (optTruthy au = true ∧ matchesVersion (au.getD "") = false)))
    ∧ generate_deprecation_message name ["a"] (some "4") = .error availableUntilErrMsg
    ∧ generate_deprecation_message name ["a"] (some "4.0") =
        .ok (deprecationText name "version 4.0" "a") := by
  refine ⟨?_, rfl, rfl⟩
  constructor
  · rintro ⟨e, he⟩
    unfold generate_deprecation_message at he
    by_cases h1 : (optTruthy au && !matchesVersion (au.getD "")) = true
    · have h1' : optTruthy au = true ∧ !matchesVersion (au.getD "") = true := by
        simpa using h1
      exact Or.inr ⟨h1'.1, by simpa using h1'.2⟩
    · rw [Bool.not_eq_true] at h1
      rw [h1] at he
      simp only [Bool.false_eq_true, if_false] at he
      by_cases h2 : recs.isEmpty = true
      · exact Or.inl (by simpa [List.isEmpty_iff] using h2)
      · rw [Bool.not_eq_true] at h2
        rw [h2] at he
        simp at he
  · intro h
    unfold generate_deprecation_message
    by_cases h1 : (optTruthy au && !matchesVersion (au.getD "")) = true
    · exact ⟨availableUntilErrMsg, by simp [h1]⟩
    · rw [Bool.not_eq_true] at h1
      rcases h with h2 | ⟨ht, hm⟩
      · subst h2
        exact ⟨emptyRecsErrMsg, by simp [h1]⟩
      · exfalso
        rw [ht, hm] at h1
        simp at h1

/-- C7.  Over any sequence of calls, the wrapper made by `deprecated` returns
the wrapped function's result on the unmodified argument of each call,
appends the deprecation warning to the process log exactly once per call
whose caller module does not start with an internal namespace (no
memoization), and the internal test is exactly the three-way
startswith check. -/
theorem deprecated_f_passthrough_and_warns {α β : Type} (f : α → β)
    (message : String) (log : List String) (calls : List (String × α)) :
    (runDeprecatedCalls f message log calls).2 = calls.map (fun c => f c.2)
    ∧ (runDeprecatedCalls f message log calls).1 =
        log ++ (calls.filter (fun c => !isInternalCaller c.1)).map
          (fun _ => message)
    ∧ ∀ cn : String, isInternalCaller cn =
        (strStartsWith cn "hopsworks" || strStartsWith cn "hsfs" ||
          strStartsWith cn "hsml") := by
  refine ⟨?_, ?_, fun _ => rfl⟩
  · induction calls generalizing log with
    | nil => rfl
    | cons c rest ih =>
      obtain ⟨cn, a⟩ := c
      simp [runDeprecatedCalls, deprecated_f, ih]
  · induction calls generalizing log with
    | nil => simp [runDeprecatedCalls]
    | cons c rest ih =>
      obtain ⟨cn, a⟩ := c
      by_cases hb : isInternalCaller cn
      · simp [runDeprecatedCalls, deprecated_f, hb, ih]
      · rw [Bool.not_eq_true] at hb
        simp [runDeprecatedCalls, deprecated_f, hb, ih]

/-- C8, counterexample.  Calling `public` with a non-string first path and
applying the resulting decorator fails, but with Python's built-in
`TypeError`, not with the configuration-error class `HopsworksApigenError`
the claim requires. -/
theorem public_nonstring_primary_cex :
    public [PathArg.obj 5, PathArg.str "a"] =
      PublicReturn.decorator [PathArg.obj 5, PathArg.str "a"]
    ∧ publicate [PathArg.obj 5, PathArg.str "a"] ([] : List (Nat × String)) 7 =
        Except.error (PyError.typeError
          "The primary public path must be a string representing an import path.")
    ∧ PyError.isConfigurationError (PyError.typeError
        "The primary public path must be a string representing an import path.") =
        false :=
  ⟨rfl, rfl, rfl⟩

/-- C8, amended.  Applying the decorator returned by the parameterized
`public` to a symbol fails whenever the first path argument is not a string,
but the raised error is a `TypeError` describing the malformed primary-path
argument, not a `HopsworksApigenError`. -/
theorem publicate_nonstring_primary_raises_type_error {T : Type}
    (paths : List (PathArg T)) (nameOf : List (T × String)) (symbol t : T)
    (h : paths.head? = some (PathArg.obj t)) :
    publicate paths nameOf symbol =
      Except.error (PyError.typeError
        "The primary public path must be a string representing an import path.") := by
  unfold publicate
  rw [h]

/-- Witness for the amended C8 at a concrete input. -/
theorem publicate_nonstring_primary_raises_type_error_witness :
    publicate [PathArg.obj 3, PathArg.str "a"] ([] : List (Nat × String)) 9 =
      Except.error (PyError.typeError
        "The primary public path must be a string representing an import path.") :=
  publicate_nonstring_primary_raises_type_error [PathArg.obj 3, PathArg.str "a"]
    [] 9 3 rfl

/-- C9.  `_merge_nav` either appends the new section at the end (when no
entry is the bare section title or a mapping keyed by it), or replaces the
first matching entry in place; in both cases every other entry is unchanged
and keeps its position. -/
theorem merge_nav_replaces_first_or_appends {V : Type} (title : String) (nav : V)
    (l : List (NavEntry V)) :
    ((∀ e ∈ l, navMatches title e = false)
      ∧ _merge_nav title nav l = l ++ [NavEntry.map title nav])
    ∨ (∃ pre e post, l = pre ++ e :: post
        ∧ (∀ e' ∈ pre, navMatches title e' = false)
        ∧ navMatches title e = true
        ∧ _merge_nav title nav l = pre ++ NavEntry.map title nav :: post) := by
  induction l with
  | nil => exact Or.inl ⟨(by intro e he; cases he), rfl⟩
  | cons e rest ih =>
    by_cases hb : navMatches title e = true
    · exact Or.inr ⟨[], e, rest, rfl, (by intro e' he'; cases he'), hb,
        (by simp [_merge_nav, hb])⟩
    · rw [Bool.not_eq_true] at hb
      rcases ih with ⟨hall, heq⟩ | ⟨pre, x, post, hl, hpre, hx, heq⟩
      · refine Or.inl ⟨?_, by simp [_merge_nav, hb, heq]⟩
        intro e' he'
        rcases List.mem_cons.mp he' with rfl | h'
        · exact hb
        · exact hall e' h'
      · refine Or.inr ⟨e :: pre, x, post, by rw [hl]; rfl, ?_, hx,
          by simp [_merge_nav, hb, heq]⟩
        intro e' he'
        rcases List.mem_cons.mp he' with rfl | h'
        · exact hb
        · exact hpre e' h'

/-- Under valid deprecation arguments the class attribute pass succeeds and
transforms the resolved attribute list pointwise. -/
theorem deprecateClassAttrs_ok {F V : Type} (db : List String)
    (au : Option String) (nm : String)
    (attrs : List (String × ClassAttr F V)) (hdb : db ≠ [])
    (hau : au = none ∨ ∃ s, au = some s ∧ matchesVersion s = true) :
    deprecateClassAttrs db au nm attrs = .ok (attrs.map (fun e =>
      match e.2 with
      | ClassAttr.func f =>
        (e.1, ClassAttr.func (PyFun.wrapper (gdmText (nm ++ "." ++ e.1) db au) f))
      | ClassAttr.other v => (e.1, ClassAttr.other v))) := by
  induction attrs with
  | nil => rfl
  | cons e rest ih =>
    obtain ⟨n, attr⟩ := e
    cases attr with
    | func f =>
      have hgdm := gdm_ok_of_valid (nm ++ "." ++ n) db au hdb hau
      have hmem : deprecateMember db au nm n f =
          .ok (PyFun.wrapper (gdmText (nm ++ "." ++ n) db au) f) := by
        unfold deprecateMember gdmText
        rw [hgdm]
      simp [deprecateClassAttrs, hmem, ih]
    | other v =>
      simp [deprecateClassAttrs, ih]

/-- C10.  Deprecating a class returns the same class object (same identity),
with every function member — inherited members included, since the attribute
view is the resolved one — rebound to a wrapper whose reported name is the
resolved public name joined with "." and the member name, and with every
non-function attribute unchanged. -/
theorem deprecate_class_in_place {F V : Type} (db : List String)
    (au : Option String) (resolvedName : String) (c : PyClass F V)
    (hdb : db ≠ [])
    (hau : au = none ∨ ∃ s, au = some s ∧ matchesVersion s = true) :
    deprecateClass db au resolvedName c = .ok
      { objectId := c.objectId,
        attrs := c.attrs.map (fun e =>
          match e.2 with
          | ClassAttr.func f =>
            (e.1, ClassAttr.func
              (PyFun.wrapper (gdmText (resolvedName ++ "." ++ e.1) db au) f))
          | ClassAttr.other v => (e.1, ClassAttr.other v)) } := by
  unfold deprecateClass
  rw [deprecateClassAttrs_ok db au resolvedName c.attrs hdb hau]

/-- Witness for C10 at a concrete class with one function member and one
non-function attribute. -/
theorem deprecate_class_in_place_witness :
    deprecateClass ["new"] none "Cls"
      ({ objectId := 42,
         attrs := [("m", ClassAttr.func (PyFun.plain 0)),
                   ("x", ClassAttr.other "v")] } : PyClass Nat String) = .ok
      { objectId := 42,
        attrs := [("m", ClassAttr.func
            (PyFun.wrapper (gdmText ("Cls" ++ "." ++ "m") ["new"] none)
              (PyFun.plain 0))),
          ("x", ClassAttr.other "v")] } :=
  deprecate_class_in_place ["new"] none "Cls" _ (by decide) (Or.inl rfl)

/-- Lookup in an empty declaration map. -/
theorem lookupName_nil (n : String) : lookupName [] n = none := rfl

/-- Unfolding one entry of the declaration map. -/
theorem lookupName_cons (k v n : String) (declared : List (String × String)) :
    lookupName ((k, v) :: declared) n =
      if (k == n) = true then some v else lookupName declared n := by
  unfold lookupName
  by_cases h : (k == n) = true
  · simp [List.find?_cons, h]
  · rw [Bool.not_eq_true] at h
    simp [List.find?_cons, h]

/-- Absence from an extended declaration map. -/
theorem lookupName_cons_eq_none (k v n : String)
    (declared : List (String × String)) :
    lookupName ((k, v) :: declared) n = none ↔
      (¬ k = n ∧ lookupName declared n = none) := by
  rw [lookupName_cons]
  by_cases h : k = n
  · simp [h]
  · simp [h]

/-- The per-target emission loop succeeds exactly when the alias names of the
remaining declarations are pairwise distinct and none of them is already in
the declaration map; the accumulated content, imported set and target name do
not affect success. -/
theorem emitAliases_ok_iff (target : String) (imported : List String)
    (declared : List (String × String)) (content : String)
    (l : List AliasDecl) :
    (∃ c, emitAliases target imported declared content l = .ok c) ↔
      ((l.map (fun a => a.alias_name)).Nodup
        ∧ ∀ a ∈ l, lookupName declared a.alias_name = none) := by
  induction l generalizing imported declared content with
  | nil => simp [emitAliases]
  | cons a rest ih =>
    cases hl : lookupName declared a.alias_name with
    | some old =>
      constructor
      · rintro ⟨c, hc⟩
        simp [emitAliases, hl] at hc
      · rintro ⟨_, hall⟩
        have := hall a (List.mem_cons_self a rest)
        rw [hl] at this
        cases this
    | none =>
      have hstep : ∀ imported' content',
          (∃ c, emitAliases target imported'
              ((a.alias_name, origRef a) :: declared) content' rest = .ok c) ↔
            (((a :: rest).map (fun b => b.alias_name)).Nodup
              ∧ ∀ b ∈ a :: rest, lookupName declared b.alias_name = none) := by
        intro imported' content'
        rw [ih]
        simp only [List.map_cons, List.nodup_cons, List.forall_mem_cons,
          lookupName_cons_eq_none, List.mem_map]
        constructor
        · rintro ⟨hnd, hall⟩
          refine ⟨⟨?_, hnd⟩, hl, fun b hb => (hall b hb).2⟩
          rintro ⟨b, hb, hbeq⟩
          exact (hall b hb).1 hbeq.symm
        · rintro ⟨⟨hnotmem, hnd⟩, _, hall⟩
          refine ⟨hnd, fun b hb => ⟨?_, hall b hb⟩⟩
          intro heq
          exact hnotmem ⟨b, hb, heq.symm⟩
      by_cases hmem : a.from_module ∈ imported
      · rw [show emitAliases target imported declared content (a :: rest) =
            emitAliases target imported ((a.alias_name, origRef a) :: declared)
              (content ++ a.alias_name ++ " = " ++ origRef a ++ "\n") rest from
            by simp [emitAliases, hl, hmem]]
        exact hstep _ _
      · rw [show emitAliases target imported declared content (a :: rest) =
            emitAliases target (a.from_module :: imported)
              ((a.alias_name, origRef a) :: declared)
              (content ++ "import " ++ a.from_module ++ "\n" ++ a.alias_name ++
                " = " ++ origRef a ++ "\n") rest from
            by simp [emitAliases, hl, hmem]]
        exact hstep _ _

/-- Stable insertion permutes to consing. -/
theorem insertSorted_perm (a : AliasDecl) (l : List AliasDecl) :
    List.Perm (insertSorted a l) (a :: l) := by
  induction l with
  | nil => exact List.Perm.refl _
  | cons b t ih =>
    unfold insertSorted
    by_cases h : aliasLe a b = true
    · simp [h]
    · rw [Bool.not_eq_true] at h
      simp only [h, Bool.false_eq_true, if_false]
      exact (ih.cons b).trans (List.Perm.swap a b t)

/-- The modelled `alias_list.sort` is a permutation of its input. -/
theorem sortAliases_perm (l : List AliasDecl) :
    List.Perm (sortAliases l) l := by
  induction l with
  | nil => exact List.Perm.refl _
  | cons a t ih => exact (insertSorted_perm a (sortAliases t)).trans (ih.cons a)

/-- The target-collision check accepts exactly the collision-free targets. -/
theorem checkTargetCollisions_ok_iff (sp sm : List String) (t : String) :
    checkTargetCollisions sp sm t = .ok () ↔
      ¬ (t ∈ sp ∨ ∃ p, p ∈ dottedPrefixes t ∧ p ∈ sm) := by
  unfold checkTargetCollisions
  by_cases hp : t ∈ sp
  · simp [hp]
  · cases hf : (dottedPrefixes t).find? (fun p => decide (p ∈ sm)) with
    | some p =>
      have h1 := List.mem_of_find?_eq_some hf
      have h2 : p ∈ sm := by simpa using List.find?_some hf
      simp only [hp, if_false, hf]
      constructor
      · intro hc
        cases hc
      · intro hc
        exact absurd (Or.inr ⟨p, h1, h2⟩) hc
    | none =>
      have hall : ∀ p ∈ dottedPrefixes t, p ∉ sm := by
        intro p hpm
        have := List.find?_eq_none.mp hf p hpm
        simpa using this
      simp only [hp, if_false, hf]
      constructor
      · rintro - (h | ⟨p, hpm, hps⟩)
        · exact h.elim
        · exact hall p hpm hps
      · intro _
        trivial

/-- A colliding target makes the collision check fail. -/
theorem checkTargetCollisions_error_of_collision (sp sm : List String)
    (t : String) (h : t ∈ sp ∨ ∃ p, p ∈ dottedPrefixes t ∧ p ∈ sm) :
    ∃ e, checkTargetCollisions sp sm t = .error e := by
  cases hck : checkTargetCollisions sp sm t with
  | ok u =>
    cases u
    exact absurd h ((checkTargetCollisions_ok_iff sp sm t).mp hck)
  | error e => exact ⟨e, rfl⟩

/-- A failing collision check makes the whole target processing fail with the
same error. -/
theorem processTarget_error_of_check (sp sm : List String)
    (pair : String × List AliasDecl) (e : String)
    (h : checkTargetCollisions sp sm pair.1 = .error e) :
    processTarget sp sm pair = .error e := by
  unfold processTarget
  rw [h]

/-- If processing some batch member fails, the whole batch loop fails. -/
theorem collect_managed_go_error_of_mem (sp sm : List String)
    (abm : List (String × List AliasDecl)) (pair : String × List AliasDecl)
    (hmem : pair ∈ abm) (h : ∃ e, processTarget sp sm pair = .error e) :
    ∃ e, collect_managed_go sp sm abm = .error e := by
  induction abm with
  | nil => cases hmem
  | cons hd tl ih =>
    rcases List.mem_cons.mp hmem with heq | hmem'
    · subst heq
      obtain ⟨e, he⟩ := h
      exact ⟨e, by simp [collect_managed_go, he]⟩
    · cases hhd : processTarget sp sm hd with
      | error e => exact ⟨e, by simp [collect_managed_go, hhd]⟩
      | ok entry =>
        obtain ⟨e, he⟩ := ih hmem'
        exact ⟨e, by simp [collect_managed_go, hhd, he]⟩

/-- C1.  The target-collision check errors, with a message naming the target
module and the offending existing path, exactly when the target equals an
existing source package or some dotted prefix of it (the target included) is
an existing source module; it accepts exactly the collision-free targets;
and a batch containing any colliding target makes `collect_managed` fail
with a configuration error. -/
theorem collect_managed_target_collision_check (sourceFiles : List (List String))
    (abm : List (String × List AliasDecl)) (sp sm : List String) (t : String) :
    ((∃ msg, checkTargetCollisions sp sm t = .error msg
        ∧ (msg = packageCollisionMsg t
            ∨ ∃ p, p ∈ dottedPrefixes t ∧ p ∈ sm ∧ msg = moduleCollisionMsg t p)) ↔
      (t ∈ sp ∨ ∃ p, p ∈ dottedPrefixes t ∧ p ∈ sm))
    ∧ (checkTargetCollisions sp sm t = .ok () ↔
        ¬ (t ∈ sp ∨ ∃ p, p ∈ dottedPrefixes t ∧ p ∈ sm))
    ∧ (∀ pair ∈ abm,
        (pair.1 ∈ sourcePackagesOf sourceFiles
          ∨ ∃ p, p ∈ dottedPrefixes pair.1 ∧ p ∈ sourceModulesOf sourceFiles) →
        ∃ e, collect_managed sourceFiles abm = Except.error e) := by
  refine ⟨⟨?_, ?_⟩, checkTargetCollisions_ok_iff sp sm t, ?_⟩
  · rintro ⟨msg, hmsg, -⟩
    by_contra hcol
    rw [(checkTargetCollisions_ok_iff sp sm t).mpr hcol] at hmsg
    exact Except.noConfusion hmsg
  · intro hcol
    by_cases hp : t ∈ sp
    · exact ⟨packageCollisionMsg t, by simp [checkTargetCollisions, hp], Or.inl rfl⟩
    · rcases hcol with h | ⟨p, hpm, hps⟩
      · exact absurd h hp
      · cases hf : (dottedPrefixes t).find? (fun q => decide (q ∈ sm)) with
        | none =>
          exfalso
          have := List.find?_eq_none.mp hf p hpm
          simp [hps] at this
        | some q =>
          have h1 := List.mem_of_find?_eq_some hf
          have h2 : q ∈ sm := by simpa using List.find?_some hf
          exact ⟨moduleCollisionMsg t q,
            by simp [checkTargetCollisions, hp, hf], Or.inr ⟨q, h1, h2, rfl⟩⟩
  · intro pair hmem hcol
    obtain ⟨e, he⟩ := checkTargetCollisions_error_of_collision
      (sourcePackagesOf sourceFiles) (sourceModulesOf sourceFiles) pair.1 hcol
    exact collect_managed_go_error_of_mem _ _ abm pair hmem
      ⟨e, processTarget_error_of_check _ _ pair e he⟩

/-- C2, counterexample.  Two alias declarations with the same alias name and
the same origin `(from_module, object_name)` are rejected with the duplicate
error, not deduplicated as the claim states: the `declared_names` check of
`collect_managed` compares only the alias name. -/
theorem collect_managed_identical_duplicate_cex :
    collect_managed []
      [("t", [AliasDecl.mk "m" "f" "x", AliasDecl.mk "m" "f" "x"])] =
      Except.error ("m.f is attempted to be exported as x in t, but the package already contains this alias, set to m.f.") :=
  rfl

/-- C2, amended.  Within one target module (whose collision check passes),
processing fails exactly when two alias declarations share an alias name —
whether or not their origins `(from_module, object_name)` differ; the raised
message names the new origin and the already-declared origin. -/
theorem processTarget_duplicate_iff (sp sm : List String)
    (pair : String × List AliasDecl)
    (hok : checkTargetCollisions sp sm pair.1 = .ok ()) :
    (∃ msg, processTarget sp sm pair = .error msg) ↔
      ¬ (pair.2.map (fun a => a.alias_name)).Nodup := by
  have hnd := ((sortAliases_perm pair.2).map (fun a => a.alias_name)).nodup_iff
  unfold processTarget
  rw [hok]
  cases hemit : emitAliases pair.1 [] [] MAGIC_COMMENT (sortAliases pair.2) with
  | error e =>
    have hno : ¬ ((sortAliases pair.2).map (fun a => a.alias_name)).Nodup := by
      intro hn
      obtain ⟨c, hc⟩ := (emitAliases_ok_iff pair.1 [] [] MAGIC_COMMENT
        (sortAliases pair.2)).mpr ⟨hn, fun a _ => rfl⟩
      rw [hemit] at hc
      exact Except.noConfusion hc
    simp only [hemit]
    constructor
    · intro _ hn
      exact hno (hnd.mpr hn)
    · intro _
      exact ⟨e, rfl⟩
  | ok c =>
    have hn : ((sortAliases pair.2).map (fun a => a.alias_name)).Nodup :=
      ((emitAliases_ok_iff pair.1 [] [] MAGIC_COMMENT (sortAliases pair.2)).mp
        ⟨c, hemit⟩).1
    simp only [hemit]
    constructor
    · rintro ⟨msg, hmsg⟩
      exact Except.noConfusion hmsg
    · intro hnot
      exact absurd (hnd.mp hn) hnot

/-- Witness for the amended C2: two declarations with differing origins and
the same alias name make the target processing fail. -/
theorem processTarget_duplicate_iff_witness :
    ∃ msg, processTarget [] []
      ("t", [AliasDecl.mk "m" "f" "x", AliasDecl.mk "m" "g" "x"]) = .error msg :=
  (processTarget_duplicate_iff [] []
    ("t", [AliasDecl.mk "m" "f" "x", AliasDecl.mk "m" "g" "x"]) rfl).mpr
    (by decide)

/-- C3.  When `collect_managed` raises a configuration error — every
collision and duplicate check lives there — `generate_aliases` propagates
that error and the destination filesystem is exactly the initial one: no
alias module file, package marker file or ignore-list entry has been
written. -/
theorem generate_aliases_fails_before_writing (sourceFiles : List (List String))
    (abm : List (String × List AliasDecl)) (fs : Fs) (e : String)
    (h : collect_managed sourceFiles abm = .error e) :
    generate_aliases sourceFiles abm fs = (.error e, fs) := by
  unfold generate_aliases
  rw [h]

/-- Witness for C3: a duplicate-alias batch leaves an empty destination
untouched. -/
theorem generate_aliases_fails_before_writing_witness :
    generate_aliases []
      [("t", [AliasDecl.mk "m" "f" "x", AliasDecl.mk "m" "g" "x"])]
      { dirs := [], files := [] } =
      (Except.error ("m.g is attempted to be exported as x in t, but the package already contains this alias, set to m.f."),
       { dirs := [], files := [] }) :=
  generate_aliases_fails_before_writing _ _ _ _ rfl

/-- C4, counterexample.  `generate_aliases` writes alias module files with an
unguarded `filepath.write_text(content)`: a pre-existing destination file
that does not start with the magic marker is overwritten anyway, contrary to
the claimed overwrite policy for materialization. -/
theorem generate_aliases_overwrites_nonmarker_cex :
    strStartsWith "# hand-authored\n" MAGIC_COMMENT = false
    ∧ getFile (Fs.mk [["pkg"]]
        [(["pkg", "__init__.py"], "# hand-authored\n")]).files
        ["pkg", "__init__.py"] = some "# hand-authored\n"
    ∧ (generate_aliases [] [("pkg", [AliasDecl.mk "m" "f" "x"])]
        (Fs.mk [["pkg"]] [(["pkg", "__init__.py"], "# hand-authored\n")])).1 =
        .ok ()
    ∧ getFile (generate_aliases [] [("pkg", [AliasDecl.mk "m" "f" "x"])]
        (Fs.mk [["pkg"]]
          [(["pkg", "__init__.py"], "# hand-authored\n")])).2.files
        ["pkg", "__init__.py"] = some (MAGIC_COMMENT ++ "import m\nx = m.f\n")
    ∧ ¬ ((MAGIC_COMMENT ++ "import m\nx = m.f\n") = "# hand-authored\n") :=
  ⟨rfl, rfl, rfl, rfl, by decide⟩

/-- Writing at a different path leaves a file's content unchanged. -/
theorem getFile_setFile_ne (files : List (List String × String))
    (q p : List String) (c : String) (h : ¬ q = p) :
    getFile (setFile files q c) p = getFile files p := by
  unfold getFile setFile
  have hb : ((q, c).1 == p) = false := by
    simpa using h
  simp [List.find?_cons, hb]

/-- One step of the `install_aliases.run` copy loop preserves a destination
file whose content does not start with the magic marker. -/
theorem install_step_preserves (dest : List (List String × String))
    (pc : List String × String) (p : List String) (old : String)
    (h1 : getFile dest p = some old)
    (h2 : strStartsWith old MAGIC_COMMENT = false) :
    getFile
      (match getFile dest pc.1 with
       | none => setFile dest pc.1 pc.2
       | some o =>
         if strStartsWith o MAGIC_COMMENT then setFile dest pc.1 pc.2 else dest)
      p = some old := by
  by_cases hq : pc.1 = p
  · rw [hq, h1]
    simp [h2, h1]
  · cases hd : getFile dest pc.1 with
    | none =>
      simpa [getFile_setFile_ne dest pc.1 p pc.2 hq] using h1
    | some o =>
      by_cases ho : strStartsWith o MAGIC_COMMENT = true
      · simpa [ho, getFile_setFile_ne dest pc.1 p pc.2 hq] using h1
      · rw [Bool.not_eq_true] at ho
        simpa [ho] using h1

/-- C4, amended.  The magic-marker overwrite policy is enforced in the
install/copy step: `install_aliases.run` never replaces a destination file
whose content does not start with the magic marker, while `generate_aliases`
itself writes unconditionally (see the counterexample). -/
theorem install_copy_preserves_nonmarker (srcFiles : List (List String × String))
    (dest : List (List String × String)) (p : List String) (old : String)
    (h1 : getFile dest p = some old)
    (h2 : strStartsWith old MAGIC_COMMENT = false) :
    getFile (install_copy srcFiles dest) p = some old := by
  induction srcFiles generalizing dest with
  | nil => exact h1
  | cons pc rest ih => exact ih _ (install_step_preserves dest pc p old h1 h2)

/-- Witness for the amended C4: a hand-authored destination file survives the
copy of a generated file onto its path. -/
theorem install_copy_preserves_nonmarker_witness :
    getFile (install_copy [(["a.py"], MAGIC_COMMENT ++ "x = m.f\n")]
      [(["a.py"], "hand-authored")]) ["a.py"] = some "hand-authored" :=
  install_copy_preserves_nonmarker [(["a.py"], MAGIC_COMMENT ++ "x = m.f\n")]
    [(["a.py"], "hand-authored")] ["a.py"] "hand-authored" rfl rfl

end HopsworksApigen
